import Mathlib

/-!
Verification development for the `ai_file_namer` repository.

The repository is a browser utility that classifies an uploaded file by
media type, reads it as text or base64, builds a prompt for a generative-AI
service, and parses the JSON-array response into file-name suggestions.

This file gives a shallow embedding of the core logic:
  * the file classifier of `src/components/FileUpload.tsx` (`processFile`),
  * the text/binary decision, code-fence stripping, JSON-response
    validation and error rewriting of `suggestDocumentNames` in the
    Gemini service module,
  * the `App` state updates `handleFileSelect` / `handleSubmit`.

JavaScript strings are modelled by Lean `String`; the handful of string
primitives the source uses (`trim`, `toLowerCase`, `startsWith`,
`endsWith`, `includes`, the fence regex) are modelled by executable
functions on the underlying character lists.
-/

namespace AiFileNamer

/-- The whitespace class of JavaScript: this single class is used both by
`String.prototype.trim` and by `\s` in regular expressions. We model its
ASCII part (space, tab, line feed, vertical tab, form feed, carriage
return); the Unicode space characters do not occur in any media type,
file name or JSON text the claims are about. -/
def isWsChar (c : Char) : Bool :=
  c = ' ' || c = '\t' || c = '\n' || c = '\x0b' || c = '\x0c' || c = '\r'

/-- The `\w` class of JavaScript regular expressions: `[A-Za-z0-9_]`. -/
def isWordChar (c : Char) : Bool :=
  ('a' ≤ c && c ≤ 'z') || ('A' ≤ c && c ≤ 'Z') || ('0' ≤ c && c ≤ '9') || c = '_'

/-- Length of the maximal prefix of `l` all of whose characters satisfy `p`. -/
def takeRun (p : Char → Bool) : List Char → Nat
  | [] => 0
  | c :: cs => if p c then takeRun p cs + 1 else 0

/-- `String.prototype.trim` on character lists: drop the maximal whitespace
prefix and the maximal whitespace suffix. -/
def trimL (l : List Char) : List Char :=
  (l.take (l.length - takeRun isWsChar l.reverse)).drop (takeRun isWsChar l)

/-- `String.prototype.trim`. -/
def trimS (s : String) : String := ⟨trimL s.data⟩

/-- Boolean list-prefix test (`String.prototype.startsWith` seen through
the character list). -/
def isPreOf : List Char → List Char → Bool
  | [], _ => true
  | _ :: _, [] => false
  | a :: as, b :: bs => a = b && isPreOf as bs

/-- `String.prototype.startsWith`. -/
def startsWithS (s pre : String) : Bool := isPreOf pre.data s.data

/-- `String.prototype.endsWith`. -/
def endsWithS (s suffix : String) : Bool := isPreOf suffix.data.reverse s.data.reverse

/-- Contiguous-substring test on lists (`String.prototype.includes`). -/
def isSubOf (needle : List Char) : List Char → Bool
  | [] => isPreOf needle []
  | c :: cs => isPreOf needle (c :: cs) || isSubOf needle cs

/-- `String.prototype.includes`. -/
def containsS (hay needle : String) : Bool := isSubOf needle.data hay.data

/-- `String.prototype.toLowerCase`, character by character (the source only
ever lowercases file names; `Char.toLower` is the ASCII lowering, which is
what matters for the extension tests of the classifier). -/
def lowerS (s : String) : String := ⟨s.data.map Char.toLower⟩

/-! ## The file classifier (`processFile` in `src/components/FileUpload.tsx`) -/

/-- `TEXT_MIME_TYPE_PREFIX`, identical in both source modules. -/
def TEXT_MIME_TYPE_PREFIX : String := "text/"

/-- `KNOWN_TEXT_MIME_TYPES` as declared in `src/components/FileUpload.tsx`
(the classifier's allow-list). -/
def KNOWN_TEXT_MIME_TYPES_upload : List String :=
  ["application/json", "application/xml", "application/javascript", "application/rtf",
   "application/x-python", "application/x-sh", "application/x-csh", "application/x-php",
   "application/x-java-source", "application/x-sql", "application/x-httpd-php",
   "application/csv",
   "application/typescript"]

/-- `KNOWN_TEXT_MIME_TYPES` as declared in the Gemini service module
(the prompt builder's allow-list). -/
def KNOWN_TEXT_MIME_TYPES_service : List String :=
  ["application/json", "application/xml", "application/javascript", "application/rtf",
   "application/x-python", "application/x-sh", "application/x-csh", "application/x-php",
   "application/x-java-source", "application/x-sql", "application/x-httpd-php",
   "application/csv", "text/csv", "text/markdown", "text/html", "text/css", "text/plain"]

def DOCX_MIME_TYPE : String :=
  "application/vnd.openxmlformats-officedocument.wordprocessingml.document"

def PDF_MIME_TYPE : String := "application/pdf"

/-- The extension alternatives of the regular expression
`/\.(txt|md|markdown|json|xml|csv|html|htm|js|css|py|java|rb|sh|php|ts)$/i`
in `processFile`. -/
def textExtensions : List String :=
  ["txt", "md", "markdown", "json", "xml", "csv", "html", "htm", "js", "css",
   "py", "java", "rb", "sh", "php", "ts"]

/-- The extension regular expression test of `processFile`; `fileName` has
already been lowercased, so the suffix test against the lowercase
alternatives is exactly the `/i` regex test. -/
def hasTextExtension (fileName : String) : Bool :=
  textExtensions.any fun e => endsWithS fileName ("." ++ e)

inductive Mode where
  | Text
  | DocxPlaceholder
  | Binary
  | Unsupported
deriving DecidableEq, Repr

structure ClassificationResult where
  mode : Mode
  /-- The media type handed to `onFileSelect` alongside the content
  (`none` when the file is rejected as unsupported). -/
  resolvedMediaType : Option String
deriving DecidableEq, Repr

/-- The synthetic content substituted for a DOCX file by `processFile`. -/
def docxPlaceholderText (name : String) : String :=
  "[Text content from DOCX file: " ++ name ++
    "] (Note: This is a placeholder. Full DOCX content analysis requires a specific client-side parsing library.)"

/-- The classification decisions of `processFile`, on the already-lowercased
file name.  `declaredMediaType` is `file.type || \x22\x22` (the empty string
stands for a missing declared type). -/
def classifyCore (declaredMediaType : String) (fileName : String) : ClassificationResult :=
  let currentMimeType := declaredMediaType
  let isPotentiallyTextFile :=
    startsWithS currentMimeType TEXT_MIME_TYPE_PREFIX ||
    KNOWN_TEXT_MIME_TYPES_upload.contains currentMimeType ||
    ((currentMimeType == "" || currentMimeType == "application/octet-stream") &&
      hasTextExtension fileName)
  let isDocxFile :=
    currentMimeType == DOCX_MIME_TYPE ||
    ((currentMimeType == "" || currentMimeType == "application/octet-stream") &&
      endsWithS fileName ".docx")
  -- `if (isDocxFile) currentMimeType = DOCX_MIME_TYPE;`
  let currentMimeType := if isDocxFile then DOCX_MIME_TYPE else currentMimeType
  if isDocxFile then
    -- the reader then substitutes `docxPlaceholderText` and sends 'text/plain'
    ⟨Mode.DocxPlaceholder, some "text/plain"⟩
  else if isPotentiallyTextFile then
    ⟨Mode.Text, some (if currentMimeType == "" then "text/plain" else currentMimeType)⟩
  else if startsWithS currentMimeType "image/" || startsWithS currentMimeType "audio/" ||
      startsWithS currentMimeType "video/" || currentMimeType == PDF_MIME_TYPE then
    ⟨Mode.Binary, some currentMimeType⟩
  else
    ⟨Mode.Unsupported, none⟩

/-- `processFile`'s classification of a file: the source lowercases the
file name (`const fileName = file.name.toLowerCase();`) before every test. -/
def classify (declaredMediaType name : String) : ClassificationResult :=
  classifyCore declaredMediaType (lowerS name)

/-! ## The prompt builder's text/binary decision (Gemini service module) -/

/-- The `isTextContent` decision of `suggestDocumentNames`:
`mimeType.startsWith(TEXT_MIME_TYPE_PREFIX) || KNOWN_TEXT_MIME_TYPES.includes(mimeType)`
with the service module's own allow-list. -/
def isTextContent (mimeType : String) : Bool :=
  startsWithS mimeType TEXT_MIME_TYPE_PREFIX ||
    KNOWN_TEXT_MIME_TYPES_service.contains mimeType

/-- The two payload shapes `suggestDocumentNames` can build: a single text
prompt, or the multimodal pair of an `inlineData` (base64) part and a text
instruction part. -/
inductive PromptShape where
  | textPrompt
  | multimodal
deriving DecidableEq, Repr

/-- Which payload shape the prompt builder produces for a resolved media
type. -/
def promptShapeOf (mimeType : String) : PromptShape :=
  if isTextContent mimeType then .textPrompt else .multimodal

/-- The classifier's own textual-type decision on a declared media type:
the `text/` prefix test or membership in `FileUpload.tsx`'s allow-list
(the first two disjuncts of `isPotentiallyTextFile`). -/
def classifierTextualType (mimeType : String) : Bool :=
  startsWithS mimeType TEXT_MIME_TYPE_PREFIX ||
    KNOWN_TEXT_MIME_TYPES_upload.contains mimeType

/-! ## Code-fence stripping

The service runs, on the trimmed response text,
`const fenceRegex = /^\x60\x60\x60(\w*)?\s*\n?(.*?)\n?\s*\x60\x60\x60$/s;`
and replaces the text by `match[2].trim()` when the match exists and the
captured group is non-empty (JavaScript truthiness of `match[2]`).

For this particular anchored pattern, backtracking never occurs, so the
match is computed by a direct function:

* The pattern can only match when the text starts with the three-backtick
  opener, ends with the three-backtick closer, and the two do not overlap
  (length at least 6).  In that case write the text as
  `open ++ mid ++ close`.
* `(\w*)` is greedy: it takes the maximal word-character run `k` at the
  start of `mid` (a backtick is not a word character, so the run never
  reaches the closer).
* `\s*` is greedy: it takes the maximal whitespace run `j` after that
  (again it can never pass a backtick); after a maximal whitespace run
  the next character is not a newline, so the following `\n?` takes
  nothing on this first attempt.
* `\n?\s*` before the final backticks matches exactly the whitespace-only
  suffixes, so a candidate end position for the lazy group `(.*?)` is
  valid exactly when everything from it up to the closer is whitespace;
  the set of valid end positions is the final whitespace run of `mid`
  (down from `mid.length` to `e := mid.length` minus that run's length).
* The group start is `start := k + j ≤ mid.length`, and the lazy group
  takes the least valid end that is `≥ start`, namely `max start e`.
  Such an end always exists, so the first attempt succeeds and no
  backtracking happens.
-/

/-- The captured group `match[2]` of the fence pattern on
`'\x60' :: '\x60' :: '\x60' :: mid ++ ['\x60', '\x60', '\x60']`. -/
def fenceGroup2 (mid : List Char) : List Char :=
  let k := takeRun isWordChar mid
  let j := takeRun isWsChar (mid.drop k)
  let start := k + j
  let e := mid.length - takeRun isWsChar mid.reverse
  (mid.take (max start e)).drop start

/-- The backtick character (written by code point to keep the source free
of stray backticks). -/
def tick : Char := Char.ofNat 96

/-- Does the list start with three backticks? -/
def startsTicks : List Char → Bool
  | a :: b :: c :: _ => a = tick && b = tick && c = tick
  | _ => false

/-- The fence-stripping step of `suggestDocumentNames` applied to the
(already trimmed) response text: replace the text by the trimmed captured
group when the regex matches and the group is non-empty. -/
def stripFenceL (s : List Char) : List Char :=
  if startsTicks s && startsTicks s.reverse && decide (6 ≤ s.length) then
    let mid := (s.take (s.length - 3)).drop 3
    let g := fenceGroup2 mid
    if g = [] then s else trimL g
  else s

/-- Fence stripping on strings. -/
def stripFence (s : String) : String := ⟨stripFenceL s.data⟩

/-! ## JSON.parse

A model of `JSON.parse` (RFC 8259 / ECMA-404 grammar, as implemented by
`JSON.parse`): values are `null`, booleans, numbers, strings, arrays and
objects; the whitespace skipped between tokens is exactly space, tab,
line feed and carriage return.  Numeric literals are kept as their
lexeme, since no behaviour of this program depends on numeric values,
only on whether a parsed value is a string or an array of strings.
`\uXXXX` string escapes are decoded with `Char.ofNat` (code points that
are not scalar values do not occur in any input the claims mention). -/

inductive Json where
  | null
  | bool (b : Bool)
  | num (lexeme : String)
  | str (value : String)
  | arr (items : List Json)
  | obj (fields : List (String × Json))

/-- JSON whitespace (`ws` in RFC 8259): strictly smaller than the
JavaScript `\s` class (`JSON.parse` rejects, e.g., a vertical tab). -/
def jsonWs (c : Char) : Bool :=
  c = ' ' || c = '\t' || c = '\n' || c = '\r'

def skipJsonWs (l : List Char) : List Char := l.dropWhile jsonWs

/-- Decode one hexadecimal digit (by code point: `0`-`9`, `a`-`f`, `A`-`F`). -/
def hexVal (c : Char) : Option Nat :=
  let n := c.toNat
  if 48 ≤ n && n ≤ 57 then some (n - 48)
  else if 97 ≤ n && n ≤ 102 then some (n - 87)
  else if 65 ≤ n && n ≤ 70 then some (n - 55)
  else none

/-- Parse the body of a JSON string after the opening quote; returns the
decoded characters and the input after the closing quote.  Unescaped
control characters and invalid escapes are rejected, as by `JSON.parse`. -/
def parseStringBody : List Char → Option (List Char × List Char)
  | [] => none
  | '"' :: rest => some ([], rest)
  | '\\' :: 'u' :: h1 :: h2 :: h3 :: h4 :: rest => do
    let d1 ← hexVal h1
    let d2 ← hexVal h2
    let d3 ← hexVal h3
    let d4 ← hexVal h4
    let (cs, r) ← parseStringBody rest
    some (Char.ofNat (4096 * d1 + 256 * d2 + 16 * d3 + d4) :: cs, r)
  | '\\' :: e :: rest => do
    let c ← match e with
      | '"' => some '"'
      | '\\' => some '\\'
      | '/' => some '/'
      | 'b' => some '\x08'
      | 'f' => some '\x0c'
      | 'n' => some '\n'
      | 'r' => some '\r'
      | 't' => some '\t'
      | _ => none
    let (cs, r) ← parseStringBody rest
    some (c :: cs, r)
  | c :: rest =>
    if c.toNat < 32 then none
    else do
      let (cs, r) ← parseStringBody rest
      some (c :: cs, r)

/-- `digits l = (run, rest)`: the maximal leading run of decimal digits
and the remainder. -/
def digits : List Char → List Char × List Char
  | [] => ([], [])
  | c :: cs =>
    if c.isDigit then
      match digits cs with
      | (run, rest) => (c :: run, rest)
    else ([], c :: cs)

/-- Parse a JSON number lexeme
`-?(0|[1-9][0-9]*)(\.[0-9]+)?([eE][+-]?[0-9]+)?`; returns the lexeme and
the remainder. -/
def parseNumber (l : List Char) : Option (List Char × List Char) := do
  let (sign, l1) := match l with
    | '-' :: r => (['-'], r)
    | r => (([] : List Char), r)
  let (int, l2) ← match l1 with
    | '0' :: r => some (['0'], r)
    | c :: r =>
      if '1' ≤ c && c ≤ '9' then
        let (d, r') := digits r
        some (c :: d, r')
      else none
    | [] => none
  let (frac, l3) ← match l2 with
    | '.' :: r =>
      match digits r with
      | ([], _) => none
      | (d, r') => some ('.' :: d, r')
    | r => some (([] : List Char), r)
  let (ex, l4) ← match l3 with
    | c :: r =>
      if c = 'e' || c = 'E' then
        let (s, r1) := match r with
          | '+' :: r' => (['+'], r')
          | '-' :: r' => (['-'], r')
          | r' => (([] : List Char), r')
        match digits r1 with
        | ([], _) => none
        | (d, r2) => some (c :: s ++ d, r2)
      else some (([] : List Char), c :: r)
    | [] => some (([] : List Char), [])
  some (sign ++ int ++ frac ++ ex, l4)

mutual

/-- Parse one JSON value (after skipping leading whitespace); `fuel`
bounds the nesting depth.  The head character decides the production, as
in the JSON grammar. -/
def parseValue : Nat → List Char → Option (Json × List Char)
  | 0, _ => none
  | fuel + 1, l =>
    match skipJsonWs l with
    | [] => none
    | c :: rest =>
      if c = '"' then do
        let (cs, r) ← parseStringBody rest
        some (.str ⟨cs⟩, r)
      else if c = '[' then
        match skipJsonWs rest with
        | ']' :: r => some (.arr [], r)
        | _ => do
          let (xs, r) ← parseElems fuel rest
          some (.arr xs, r)
      else if c = '{' then
        match skipJsonWs rest with
        | '}' :: r => some (.obj [], r)
        | _ => do
          let (ms, r) ← parseMembers fuel rest
          some (.obj ms, r)
      else if c = 'n' then
        match rest with
        | 'u' :: 'l' :: 'l' :: r => some (.null, r)
        | _ => none
      else if c = 't' then
        match rest with
        | 'r' :: 'u' :: 'e' :: r => some (.bool true, r)
        | _ => none
      else if c = 'f' then
        match rest with
        | 'a' :: 'l' :: 's' :: 'e' :: r => some (.bool false, r)
        | _ => none
      else if c = '-' || c.isDigit then do
        let (lex, r) ← parseNumber (c :: rest)
        some (.num ⟨lex⟩, r)
      else none

/-- Parse a non-empty comma-separated element list, up to and including
the closing bracket. -/
def parseElems : Nat → List Char → Option (List Json × List Char)
  | 0, _ => none
  | fuel + 1, l => do
    let (v, r) ← parseValue fuel l
    match skipJsonWs r with
    | ',' :: r2 => do
      let (xs, r3) ← parseElems fuel r2
      some (v :: xs, r3)
    | ']' :: r2 => some ([v], r2)
    | _ => none

/-- Parse a non-empty comma-separated member list, up to and including
the closing brace. -/
def parseMembers : Nat → List Char → Option (List (String × Json) × List Char)
  | 0, _ => none
  | fuel + 1, l => do
    let key ← match skipJsonWs l with
      | '"' :: rest => parseStringBody rest
      | _ => none
    let (ks, r0) := key
    let r1 ← match skipJsonWs r0 with
      | ':' :: r => some r
      | _ => none
    let (v, r2) ← parseValue fuel r1
    match skipJsonWs r2 with
    | ',' :: r3 => do
      let (ms, r4) ← parseMembers fuel r3
      some ((⟨ks⟩, v) :: ms, r4)
    | '}' :: r3 => some ([(⟨ks⟩, v)], r3)
    | _ => none

end

/-- `JSON.parse` on character lists: one value surrounded by whitespace
and nothing else.  The fuel `l.length + 1` dominates the nesting depth,
as each nested array or object consumes at least its opening bracket. -/
def jsonParseL (l : List Char) : Option Json :=
  match parseValue (l.length + 1) l with
  | some (v, rest) => if skipJsonWs rest = [] then some v else none
  | none => none

/-- `JSON.parse` on strings; `none` models a thrown `SyntaxError`. -/
def jsonParse (s : String) : Option Json := jsonParseL s.data

/-! ## The suggestion request (`suggestDocumentNames`) -/

/-- Finish reasons of a response candidate (the string enum of the SDK,
restricted to the values the source inspects plus the normal stop). -/
inductive FinishReason where
  | SAFETY
  | RECITATION
  | OTHER
  | STOP
deriving DecidableEq, Repr

structure Candidate where
  finishReason : Option FinishReason
deriving DecidableEq, Repr

/-- The part of a `GenerateContentResponse` the source reads: the response
text and the candidate list. -/
structure GenResponse where
  text : String
  candidates : List Candidate
deriving DecidableEq, Repr

/-- The awaited outcome of `ai.models.generateContent`: either the call
throws (network, authentication, SDK error) or it returns a response. -/
inductive NetOutcome where
  | throws (msg : String)
  | returns (resp : GenResponse)
deriving DecidableEq, Repr

/-- Outcome of `suggestDocumentNames` together with whether the network
call was attempted at all. -/
structure RunResult where
  result : Except String (List String)
  attempted : Bool

def configErrorMsg : String :=
  "Gemini API key is not configured. Please set the API_KEY environment variable."

/-- The message of the error thrown when the parsed value is a bare
string: the template quotes the parsed string between double quotes. -/
def bareStringMsg (s : String) : String :=
  "Received a single string from AI instead of a JSON array: " ++
    ("\"" ++ s ++ "\"") ++ ". Please check AI prompt for JSON array enforcement."

def unexpectedFormatMsg : String :=
  "Received unexpected data format from AI. Expected a JSON array of strings."

/-- A `SyntaxError` message from `JSON.parse`; its text is
engine-specific, and nothing in the program inspects it, so the model
uses a fixed representative. -/
def jsonSyntaxErrorMsg : String := "Unexpected token in JSON"

def invalidKeyMsg : String := "Invalid Gemini API Key. Please check your configuration."

def safetyMsg : String :=
  "The request was blocked due to safety concerns (e.g. content policy). Please modify the content or instructions."

def recitationMsg : String :=
  "The request was blocked due to recitation concerns. Please try a different prompt."

def otherStopMsg : String :=
  "The request was stopped for other reasons by the API. Please check the console for more details if available."

/-- Is the parsed JSON value a string? (`typeof item === 'string'`). -/
def isStrJson : Json → Bool
  | .str _ => true
  | _ => false

/-- Extract the strings of a list of JSON values (used only when every
element is a string, where it is the identity on the payload). -/
def stringsOf (xs : List Json) : List String :=
  xs.filterMap fun x => match x with
    | .str s => some s
    | _ => none

/-- Is the parsed JSON value an array whose elements are all strings?
(`Array.isArray(parsedData) && parsedData.every(... 'string')`). -/
def isStringArray : Json → Bool
  | .arr xs => xs.all isStrJson
  | _ => false

/-- The response-validation step of `suggestDocumentNames`: given the
result of `JSON.parse` on the fence-stripped text, return the string
array or the message of the error thrown inside the `try` block
(`Array.isArray(parsedData) && parsedData.every(... 'string')`, the bare
string special case, the generic case, and the `SyntaxError` of a failed
parse). -/
def validateParsed : Option Json → Except String (List String)
  | none => .error jsonSyntaxErrorMsg
  | some (.arr xs) =>
    if xs.all isStrJson then .ok (stringsOf xs) else .error unexpectedFormatMsg
  | some (.str s) => .error (bareStringMsg s)
  | some _ => .error unexpectedFormatMsg

/-- The first two rewriting steps of the `catch` block of
`suggestDocumentNames`: wrap the thrown message in the generic
communication-failure text, then replace it wholesale when it mentions an
invalid API key. -/
def baseErrorMessage (innerMsg : String) : String :=
  if containsS innerMsg "API key not valid" then invalidKeyMsg
  else "Failed to get suggestions from AI: " ++ innerMsg ++ "."

/-- The `catch` block of `suggestDocumentNames`: wrap the thrown message,
rewrite it when it mentions an invalid API key, then override it with a
reason-specific explanation when the first candidate of the (non-null)
response carries a SAFETY / RECITATION / OTHER finish reason.  (Every
error reaching the block in the model is an `Error`, so the
`error instanceof Error` test is always true.) -/
def finishOverride (innerMsg : String) : Option FinishReason → String
  | some .SAFETY => safetyMsg
  | some .RECITATION => recitationMsg
  | some .OTHER => otherStopMsg
  | _ => baseErrorMessage innerMsg

def rewriteError (innerMsg : String) (resp : Option GenResponse) : String :=
  match resp with
  | none => baseErrorMessage innerMsg
  | some r =>
    match r.candidates with
    | [] => baseErrorMessage innerMsg
    | cand :: _ => finishOverride innerMsg cand.finishReason

/-- Is an API credential configured?  `process.env.API_KEY` is absent or
a string, and the source tests its JavaScript truthiness (`!API_KEY`),
so the empty string also counts as unconfigured. -/
def keyConfigured : Option String → Bool
  | none => false
  | some s => s ≠ ""

/-- `suggestDocumentNames`, as a function of the configured credential,
the four arguments of the source function, and the outcome of the single
network call.  The prompt-construction step in between (text prompt when
`isTextContent mimeType`, multimodal parts otherwise — see
`promptShapeOf`) affects only the request payload, never the control
flow modelled here. -/
def suggestDocumentNames (apiKey : Option String)
    (originalFileName fileContent mimeType namingInstruction : String)
    (net : NetOutcome) : RunResult :=
  if !keyConfigured apiKey then
    ⟨.error configErrorMsg, false⟩
  else
    match net with
    | .throws m => ⟨.error (rewriteError m none), true⟩
    | .returns resp =>
      match validateParsed (jsonParse (stripFence (trimS resp.text))) with
      | .ok names => ⟨.ok names, true⟩
      | .error m => ⟨.error (rewriteError m (some resp)), true⟩

/-! ## The `App` component state (`handleFileSelect` / `handleSubmit`) -/

/-- The `App` React state relevant to file selection and submission. -/
structure AppState where
  originalFileName : Option String
  documentContent : Option String
  uploadedFileMimeType : Option String
  namingRefContent : Option String
  namingRefError : Option String
  suggestedNames : List String
  error : Option String
  isLoading : Bool
deriving DecidableEq, Repr

/-- JavaScript truthiness of a nullable string state field: `null` and
the empty string are falsy. -/
def truthy : Option String → Bool
  | none => false
  | some s => s ≠ ""

/-- The argument tuples `FileUpload` ever passes to `onFileSelect`
(every call site in `processFile` / `handleFileChange`):
a successful read `(file, content, mimeType, null)`, a failure
`(null, null, null, message)` (read error or unsupported type), or a
cleared selection `(null, null, null, null)`. -/
inductive SelectEvent where
  | selected (name content mimeType : String)
  | failed (msg : String)
  | cleared
deriving DecidableEq, Repr

/-- `handleFileSelect` in `App`: store the file fields, store the error
message, and clear the suggestion list. -/
def handleFileSelect (s : AppState) : SelectEvent → AppState
  | .selected name content mimeType =>
    { s with originalFileName := some name, documentContent := some content,
             uploadedFileMimeType := some mimeType, error := none, suggestedNames := [] }
  | .failed msg =>
    { s with originalFileName := none, documentContent := none,
             uploadedFileMimeType := none, error := some msg, suggestedNames := [] }
  | .cleared =>
    { s with originalFileName := none, documentContent := none,
             uploadedFileMimeType := none, error := none, suggestedNames := [] }

def uploadFirstMsg : String :=
  "Please upload a supported file first (Text, PDF, DOCX, Image, Audio, or Video)."

def notLoadedMsg : String :=
  "Naming guidelines (naming_ref.md) are not loaded or still loading. Please ensure the file is accessible and try again."

def appKeyMsg : String :=
  "API key is not configured. Please ensure the API_KEY environment variable is set."

/-- The fallback policy string of `handleSubmit`. -/
def fallbackInstruction : String :=
  "Suggest 5 concise and relevant file names. Ensure they are suitable for typical file systems."

/-- Outcome of `handleSubmit`: the settled state, whether
`suggestDocumentNames` was invoked, and, when it was, the naming
instructions that were passed to it. -/
structure SubmitResult where
  state : AppState
  attempted : Bool
  instructionsUsed : Option String
deriving DecidableEq, Repr

/-- `handleSubmit` in `App`, settled: the guards in source order, then the
awaited request with its two outcomes (`requestOutcome` stands for what
`suggestDocumentNames` returns or throws; the `finally` clause makes
`isLoading` false on every settled path past the guards). -/
def handleSubmit (apiKey : Option String) (s : AppState)
    (requestOutcome : Except String (List String)) : SubmitResult :=
  if !truthy s.documentContent || !truthy s.uploadedFileMimeType ||
      !truthy s.originalFileName then
    ⟨{ s with error := some uploadFirstMsg }, false, none⟩
  else if !truthy s.namingRefContent && !truthy s.namingRefError then
    ⟨{ s with error := some notLoadedMsg }, false, none⟩
  else if truthy s.namingRefError && !truthy s.namingRefContent then
    ⟨{ s with error := some ("Cannot proceed: " ++ s.namingRefError.getD "") }, false, none⟩
  else if !keyConfigured apiKey then
    ⟨{ s with error := some appKeyMsg, isLoading := false }, false, none⟩
  else
    let instructionsToUse :=
      if truthy s.namingRefContent then s.namingRefContent.getD "" else fallbackInstruction
    match requestOutcome with
    | .ok names =>
      ⟨{ s with isLoading := false, error := none, suggestedNames := names },
        true, some instructionsToUse⟩
    | .error m =>
      ⟨{ s with isLoading := false, error := some m, suggestedNames := [] },
        true, some instructionsToUse⟩

/-! ## Derived notions used in the claim statements -/

/-- The response-parsing pipeline of `suggestDocumentNames` up to
`JSON.parse`: trim the raw response text, strip an optional fence, parse. -/
def responseParse (text : String) : Option Json :=
  jsonParse (stripFence (trimS text))

/-- Three backticks, as a character list. -/
def tickL : List Char := [tick, tick, tick]

/-- The inside of a fenced block: language tag, newline, body, newline. -/
def midL (lang t : List Char) : List Char := lang ++ '\n' :: (t ++ ['\n'])

/-- A fenced block around `t` with language tag `lang`, on lists. -/
def wrapL (lang t : List Char) : List Char := tickL ++ (midL lang t ++ tickL)

/-- Wrapping a text in a triple-backtick fenced block with an optional
language tag (the tag is empty for a bare fence). -/
def wrapFence (lang t : String) : String := ⟨wrapL lang.data t.data⟩

/-! ## Elementary facts about character runs and trimming -/

theorem takeRun_le (p : Char → Bool) : ∀ l : List Char, takeRun p l ≤ l.length
  | [] => Nat.le_refl 0
  | c :: cs => by
    by_cases h : p c
    · simpa [takeRun, h] using takeRun_le p cs
    · simp [takeRun, h]

theorem takeRun_all (p : Char → Bool) :
    ∀ l : List Char, l.all p = true → takeRun p l = l.length
  | [], _ => rfl
  | c :: cs, h => by
    simp only [List.all_cons, Bool.and_eq_true] at h
    simp [takeRun, h.1, takeRun_all p cs h.2]

theorem takeRun_lt (p : Char → Bool) :
    ∀ l : List Char, l.all p = false → takeRun p l < l.length
  | c :: cs, h => by
    by_cases hc : p c
    · simp only [List.all_cons, hc, Bool.true_and] at h
      simpa [takeRun, hc, Nat.succ_lt_succ_iff] using takeRun_lt p cs h
    · simp [takeRun, hc]

theorem takeRun_append_stop (p : Char → Bool) (c : Char) (hc : p c = false) :
    ∀ x y : List Char, takeRun p (x ++ c :: y) = takeRun p x
  | [], y => by simp [takeRun, hc]
  | a :: x, y => by
    by_cases h : p a
    · simp [takeRun, h, takeRun_append_stop p c hc x y]
    · simp [takeRun, h]

theorem takeRun_append_lt (p : Char → Bool) :
    ∀ x y : List Char, takeRun p x < x.length → takeRun p (x ++ y) = takeRun p x
  | [], _, h => by simp at h
  | a :: x, y, h => by
    by_cases ha : p a
    · have h' : takeRun p x < x.length := by
        simp only [takeRun, ha, if_true, List.length_cons] at h
        omega
      simp [takeRun, ha, takeRun_append_lt p x y h']
    · simp [takeRun, ha]

theorem takeRun_drop (p : Char → Bool) :
    ∀ l : List Char, l.all p = false →
      ∃ c rest, l.drop (takeRun p l) = c :: rest ∧ p c = false
  | a :: l, h => by
    by_cases ha : p a
    · simp only [List.all_cons, ha, Bool.true_and] at h
      obtain ⟨c, rest, hd, hc⟩ := takeRun_drop p l h
      exact ⟨c, rest, by simpa [takeRun, ha] using hd, hc⟩
    · exact ⟨a, l, by simp [takeRun, ha], by simpa using ha⟩

theorem trimL_nil : trimL [] = [] := rfl

theorem trimL_all_ws {l : List Char} (h : l.all isWsChar = true) : trimL l = [] := by
  unfold trimL
  rw [takeRun_all isWsChar l.reverse (by simpa [List.all_reverse] using h)]
  simp

theorem trimL_of_runs_zero {l : List Char} (h1 : takeRun isWsChar l = 0)
    (h2 : takeRun isWsChar l.reverse = 0) : trimL l = l := by
  unfold trimL
  rw [h1, h2]
  simp

/-- The reverse of a trimmed list is the trimmed reverse. -/
theorem trimL_reverse (l : List Char) : trimL l.reverse = (trimL l).reverse := by
  have hb := takeRun_le isWsChar l.reverse
  rw [List.length_reverse] at hb
  unfold trimL
  rw [List.reverse_reverse, List.length_reverse, List.reverse_drop, List.reverse_take,
    List.length_take, List.drop_take]
  congr 1
  · omega
  · congr 1
    omega

theorem takeRun_trimL_zero {l : List Char} (h : l.all isWsChar = false) :
    takeRun isWsChar (trimL l) = 0 := by
  obtain ⟨c, rest, hd, hc⟩ := takeRun_drop isWsChar l h
  unfold trimL
  rw [List.drop_take, hd]
  have ha := takeRun_lt isWsChar l h
  have hb := takeRun_le isWsChar l.reverse
  -- the take keeps at least the head `c`: its length bound is positive
  have hlen : takeRun isWsChar l < l.length - takeRun isWsChar l.reverse ∨
      l.length - takeRun isWsChar l.reverse ≤ takeRun isWsChar l := by omega
  rcases Nat.lt_or_ge (takeRun isWsChar l) (l.length - takeRun isWsChar l.reverse) with hl | hl
  · have : l.length - takeRun isWsChar l.reverse - takeRun isWsChar l ≠ 0 := by omega
    obtain ⟨m, hm⟩ := Nat.exists_eq_succ_of_ne_zero this
    rw [hm, List.take_succ_cons]
    simp [takeRun, hc]
  · rw [Nat.sub_eq_zero_of_le hl]
    simp [takeRun]

theorem takeRun_trimL_reverse_zero {l : List Char} (h : l.all isWsChar = false) :
    takeRun isWsChar (trimL l).reverse = 0 := by
  rw [← trimL_reverse]
  exact takeRun_trimL_zero (by simpa [List.all_reverse] using h)

theorem trimL_trimL (l : List Char) : trimL (trimL l) = trimL l := by
  by_cases h : l.all isWsChar = true
  · rw [trimL_all_ws h, trimL_nil]
  · exact trimL_of_runs_zero
      (takeRun_trimL_zero (Bool.eq_false_iff.mpr h))
      (takeRun_trimL_reverse_zero (Bool.eq_false_iff.mpr h))

/-- A list with a non-whitespace element is strictly longer than its two
boundary whitespace runs together. -/
theorem runs_add_lt {t : List Char} (ht : t.all isWsChar = false) :
    takeRun isWsChar t + takeRun isWsChar t.reverse < t.length := by
  obtain ⟨c, rest, hd, hc⟩ := takeRun_drop isWsChar t ht
  have ht_eq : t = t.take (takeRun isWsChar t) ++ (c :: rest) := by
    rw [← hd]
    exact (List.take_append_drop _ t).symm
  have ha := takeRun_le isWsChar t
  have hb_le : takeRun isWsChar t.reverse ≤ rest.length := by
    have hrev : t.reverse = rest.reverse ++ c :: (t.take (takeRun isWsChar t)).reverse := by
      conv_lhs => rw [ht_eq]
      simp
    rw [hrev, takeRun_append_stop isWsChar c hc]
    exact (takeRun_le _ _).trans (by simp)
  have hlen : t.length = takeRun isWsChar t + (rest.length + 1) := by
    conv_lhs => rw [ht_eq]
    simp [List.length_take]
    omega
  omega

theorem trimL_ne_nil {t : List Char} (ht : t.all isWsChar = false) : trimL t ≠ [] := by
  have hkey := runs_add_lt ht
  have hlen : (trimL t).length =
      (t.length - takeRun isWsChar t.reverse) ⊓ t.length - takeRun isWsChar t := by
    unfold trimL
    rw [List.length_drop, List.length_take]
  intro h
  rw [h] at hlen
  simp only [List.length_nil] at hlen
  omega

/-! ## The fence pattern on a wrapped text -/

theorem isWsChar_nl : isWsChar '\n' = true := by decide

theorem isWsChar_tick : isWsChar tick = false := by decide

theorem isWordChar_tick : isWordChar tick = false := by decide

theorem fenceGroup2_midL (lang t : List Char) (hlang : lang.all isWordChar = true)
    (ht : t.all isWsChar = false) :
    fenceGroup2 (midL lang t) = trimL t := by
  have ha_lt := takeRun_lt isWsChar t ht
  have hb_lt : takeRun isWsChar t.reverse < t.length := by
    have h := takeRun_lt isWsChar t.reverse (by simpa [List.all_reverse] using ht)
    simpa using h
  have hkey := runs_add_lt ht
  simp only [fenceGroup2, midL]
  rw [takeRun_append_stop isWordChar '\n' (by decide), takeRun_all isWordChar lang hlang,
    List.drop_left]
  have hj : takeRun isWsChar ('\n' :: (t ++ ['\n'])) = takeRun isWsChar t + 1 := by
    simp [takeRun, isWsChar_nl, takeRun_append_lt isWsChar t ['\n'] ha_lt]
  rw [hj]
  have hrev : (lang ++ '\n' :: (t ++ ['\n'])).reverse
      = '\n' :: (t.reverse ++ ('\n' :: lang.reverse)) := by
    simp
  have he : takeRun isWsChar (lang ++ '\n' :: (t ++ ['\n'])).reverse
      = takeRun isWsChar t.reverse + 1 := by
    rw [hrev]
    simp [takeRun, isWsChar_nl,
      takeRun_append_lt isWsChar t.reverse ('\n' :: lang.reverse) (by simpa using hb_lt)]
  rw [he]
  have hlen : (lang ++ '\n' :: (t ++ ['\n'])).length = lang.length + t.length + 2 := by
    simp
    omega
  rw [hlen]
  have hmax : max (lang.length + (takeRun isWsChar t + 1))
      (lang.length + t.length + 2 - (takeRun isWsChar t.reverse + 1))
      = (lang ++ ['\n']).length + (t.length - takeRun isWsChar t.reverse) := by
    simp only [List.length_append, List.length_cons, List.length_nil]
    omega
  rw [hmax]
  have hsplit : lang ++ '\n' :: (t ++ ['\n']) = (lang ++ ['\n']) ++ (t ++ ['\n']) := by
    simp
  rw [hsplit, List.take_append, List.take_append_of_le_length (by omega)]
  have hl2 : lang.length + (takeRun isWsChar t + 1)
      = (lang ++ ['\n']).length + takeRun isWsChar t := by
    simp
    omega
  rw [hl2, List.drop_append]
  rfl


theorem jsonWs_tick : jsonWs tick = false := by decide

theorem wrapL_eq_cons (lang t : List Char) :
    wrapL lang t = tick :: tick :: tick :: (midL lang t ++ tickL) := by
  simp [wrapL, tickL]

theorem startsTicks_wrapL (lang t : List Char) : startsTicks (wrapL lang t) = true := by
  rw [wrapL_eq_cons]
  simp [startsTicks]

theorem wrapL_reverse (lang t : List Char) :
    (wrapL lang t).reverse = tick :: tick :: tick :: ((midL lang t).reverse ++ tickL) := by
  simp [wrapL, tickL]

theorem startsTicks_reverse_wrapL (lang t : List Char) :
    startsTicks (wrapL lang t).reverse = true := by
  rw [wrapL_reverse]
  simp [startsTicks]

theorem length_wrapL (lang t : List Char) :
    (wrapL lang t).length = (midL lang t).length + 6 := by
  simp [wrapL, tickL]

theorem mid_of_wrapL (lang t : List Char) :
    ((wrapL lang t).take ((wrapL lang t).length - 3)).drop 3 = midL lang t := by
  rw [length_wrapL]
  have h3 : (midL lang t).length + 6 - 3 = tickL.length + (midL lang t).length := by
    simp [tickL]
    omega
  rw [h3, wrapL, List.take_append, List.take_append_of_le_length (Nat.le_refl _),
    List.take_length]
  show (tickL ++ midL lang t).drop tickL.length = midL lang t
  exact List.drop_left _ _

theorem stripFenceL_not_fenced {s : List Char} (h : startsTicks s = false) :
    stripFenceL s = s := by
  unfold stripFenceL
  rw [h]
  simp

theorem stripFenceL_of_fenced {s : List Char} (h1 : startsTicks s = true)
    (h2 : startsTicks s.reverse = true) (h3 : 6 ≤ s.length) :
    stripFenceL s =
      (if fenceGroup2 ((s.take (s.length - 3)).drop 3) = [] then s
       else trimL (fenceGroup2 ((s.take (s.length - 3)).drop 3))) := by
  unfold stripFenceL
  rw [h1, h2]
  simp [h3]

theorem stripFenceL_wrapL (lang t : List Char) (hlang : lang.all isWordChar = true)
    (ht : t.all isWsChar = false) :
    stripFenceL (wrapL lang t) = trimL t := by
  rw [stripFenceL_of_fenced (startsTicks_wrapL lang t) (startsTicks_reverse_wrapL lang t)
    (by rw [length_wrapL]; omega)]
  rw [mid_of_wrapL, fenceGroup2_midL lang t hlang ht]
  rw [if_neg (trimL_ne_nil ht)]
  exact trimL_trimL t

theorem fenceGroup2_midL_ws (lang t : List Char) (hlang : lang.all isWordChar = true)
    (ht : t.all isWsChar = true) :
    fenceGroup2 (midL lang t) = [] := by
  simp only [fenceGroup2, midL]
  rw [takeRun_append_stop isWordChar '\n' (by decide), takeRun_all isWordChar lang hlang,
    List.drop_left]
  have hall : (t ++ ['\n']).all isWsChar = true := by
    simp [List.all_append, ht, isWsChar_nl]
  have hj : takeRun isWsChar ('\n' :: (t ++ ['\n'])) = t.length + 2 := by
    simp [takeRun, isWsChar_nl, takeRun_all isWsChar (t ++ ['\n']) hall]
  rw [hj]
  apply List.drop_eq_nil_of_le
  rw [List.length_take]
  simp only [List.length_append, List.length_cons, List.length_nil]
  omega

theorem stripFenceL_wrapL_ws (lang t : List Char) (hlang : lang.all isWordChar = true)
    (ht : t.all isWsChar = true) :
    stripFenceL (wrapL lang t) = wrapL lang t := by
  rw [stripFenceL_of_fenced (startsTicks_wrapL lang t) (startsTicks_reverse_wrapL lang t)
    (by rw [length_wrapL]; omega)]
  rw [mid_of_wrapL, fenceGroup2_midL_ws lang t hlang ht]
  simp

theorem takeRun_wrapL_zero (lang t : List Char) : takeRun isWsChar (wrapL lang t) = 0 := by
  rw [wrapL_eq_cons]
  simp [takeRun, isWsChar_tick]

theorem trimL_wrapL (lang t : List Char) : trimL (wrapL lang t) = wrapL lang t := by
  refine trimL_of_runs_zero (takeRun_wrapL_zero lang t) ?_
  rw [wrapL_reverse]
  simp [takeRun, isWsChar_tick]

theorem jsonParseL_tick_head (rest : List Char) : jsonParseL (tick :: rest) = none := by
  have hskip : skipJsonWs (tick :: rest) = tick :: rest := by
    simp [skipJsonWs, List.dropWhile_cons, jsonWs_tick]
  unfold jsonParseL
  have hval : parseValue ((tick :: rest).length + 1) (tick :: rest) = none := by
    simp only [List.length_cons]
    rw [parseValue, hskip]
    norm_num
    rw [if_neg (by decide), if_neg (by decide), if_neg (by decide), if_neg (by decide),
      if_neg (by decide), if_neg (by decide), if_neg (by decide)]
  rw [hval]

theorem isSubOf_of_startsTicks : ∀ l : List Char, startsTicks l = true → isSubOf tickL l = true
  | a :: b :: c :: rest, h => by
    simp only [startsTicks, Bool.and_eq_true, decide_eq_true_eq] at h
    obtain ⟨⟨h1, h2⟩, h3⟩ := h
    subst h1
    subst h2
    subst h3
    simp [isSubOf, isPreOf, tickL]
  | [], h => by simp [startsTicks] at h
  | [a], h => by simp [startsTicks] at h
  | [a, b], h => by simp [startsTicks] at h

/-! ## Prefix, suffix and substring facts -/

theorem isPreOf_append_self : ∀ n r : List Char, isPreOf n (n ++ r) = true
  | [], _ => rfl
  | a :: n, r => by simp [isPreOf, isPreOf_append_self n r]

theorem isPreOf_exists : ∀ p l : List Char, isPreOf p l = true → ∃ r, l = p ++ r
  | [], l, _ => ⟨l, rfl⟩
  | a :: p, [], h => by simp [isPreOf] at h
  | a :: p, b :: l, h => by
    simp only [isPreOf, Bool.and_eq_true, decide_eq_true_eq] at h
    obtain ⟨r, hr⟩ := isPreOf_exists p l h.2
    exact ⟨r, by simp [h.1, hr]⟩

theorem isSubOf_append : ∀ a n r : List Char, isSubOf n (a ++ (n ++ r)) = true
  | [], n, r => by
    simp only [List.nil_append]
    cases hnr : n ++ r with
    | nil =>
      have hn : n = [] := by
        cases n with
        | nil => rfl
        | cons x xs => simp at hnr
      subst hn
      simp [isSubOf, isPreOf]
    | cons c cs =>
      have hpre : isPreOf n (n ++ r) = true := isPreOf_append_self n r
      rw [hnr] at hpre
      simp [isSubOf, hpre]
  | a₀ :: a, n, r => by simp [isSubOf, isSubOf_append a n r]

theorem string_eq_of_data {a b : String} (h : a.data = b.data) : a = b :=
  congrArg String.mk h

/-- Substring containment of the middle part of a concatenation. -/
theorem containsS_middle (a b c : String) : containsS (a ++ b ++ c) b = true := by
  show isSubOf b.data (a ++ b ++ c).data = true
  rw [String.data_append, String.data_append, List.append_assoc]
  exact isSubOf_append a.data b.data c.data

theorem endsWithS_intro (s suffix : String) (r : List Char) (h : s.data = r ++ suffix.data) :
    endsWithS s suffix = true := by
  unfold endsWithS
  rw [h, List.reverse_append]
  exact isPreOf_append_self _ _

theorem endsWithS_elim (s suffix : String) (h : endsWithS s suffix = true) :
    ∃ r, s.data = r ++ suffix.data := by
  unfold endsWithS at h
  obtain ⟨q, hq⟩ := isPreOf_exists _ _ h
  refine ⟨q.reverse, ?_⟩
  have := congrArg List.reverse hq
  simpa using this

/-! ## Lowercasing -/

theorem charToLower_idem (c : Char) : Char.toLower (Char.toLower c) = Char.toLower c := by
  unfold Char.toLower
  by_cases h : c.toNat ≥ 65 ∧ c.toNat ≤ 90
  · rw [if_pos h]
    have hv : (c.toNat + 32).isValidChar := by
      left
      omega
    rw [Char.ofNat, dif_pos hv]
    have ht : (Char.ofNatAux (c.toNat + 32) hv).toNat = c.toNat + 32 := by
      simp [Char.ofNatAux, Char.toNat, UInt32.toNat, BitVec.toNat_ofNatLt]
    rw [ht, if_neg (by omega)]
  · rw [if_neg h, if_neg h]

theorem lowerS_lowerS (s : String) : lowerS (lowerS s) = lowerS s := by
  show (⟨(s.data.map Char.toLower).map Char.toLower⟩ : String) = ⟨s.data.map Char.toLower⟩
  rw [List.map_map]
  congr 1
  simp [Function.comp_def, charToLower_idem]

theorem endsWithS_lower_docx (name : String) (h : endsWithS name ".docx" = true) :
    endsWithS (lowerS name) ".docx" = true := by
  obtain ⟨r, hr⟩ := endsWithS_elim name ".docx" h
  apply endsWithS_intro _ _ (r.map Char.toLower)
  show name.data.map Char.toLower = r.map Char.toLower ++ (".docx" : String).data
  rw [hr, List.map_append]
  have hfix : (".docx" : String).data.map Char.toLower = (".docx" : String).data := by decide
  rw [hfix]

/-! ## Response validation and error rewriting -/

theorem stringsOf_map_str (l : List String) : stringsOf (l.map Json.str) = l := by
  induction l with
  | nil => rfl
  | cons a l ih =>
    show stringsOf (Json.str a :: l.map Json.str) = a :: l
    rw [stringsOf, List.filterMap_cons]
    show a :: stringsOf (l.map Json.str) = a :: l
    rw [ih]

theorem allStr_map_str (l : List String) : (l.map Json.str).all isStrJson = true := by
  rw [List.all_eq_true]
  intro x hx
  obtain ⟨a, _, rfl⟩ := List.mem_map.1 hx
  rfl

theorem rewriteError_normal (im : String) (resp : GenResponse)
    (hnormal : ∀ cand, resp.candidates.head? = some cand →
      cand.finishReason = none ∨ cand.finishReason = some FinishReason.STOP) :
    rewriteError im (some resp) = baseErrorMessage im := by
  change (match resp.candidates with
    | [] => baseErrorMessage im
    | cand :: _ => finishOverride im cand.finishReason) = baseErrorMessage im
  cases hc : resp.candidates with
  | nil => rfl
  | cons cand rest =>
    have hh : resp.candidates.head? = some cand := by rw [hc]; rfl
    rcases hnormal cand hh with hn | hn <;> simp [finishOverride, hn]

theorem rewriteError_finish (im : String) (resp : GenResponse) (cand : Candidate)
    (rest : List Candidate) (hc : resp.candidates = cand :: rest) :
    (cand.finishReason = some FinishReason.SAFETY → rewriteError im (some resp) = safetyMsg) ∧
    (cand.finishReason = some FinishReason.RECITATION →
      rewriteError im (some resp) = recitationMsg) ∧
    (cand.finishReason = some FinishReason.OTHER → rewriteError im (some resp) = otherStopMsg) := by
  have hch : (rewriteError im (some resp)) = (match resp.candidates with
    | [] => baseErrorMessage im
    | cand :: _ => finishOverride im cand.finishReason) := rfl
  rw [hch, hc]
  refine ⟨fun hn => ?_, fun hn => ?_, fun hn => ?_⟩ <;> simp [finishOverride, hn]

/-- With a configured key, `suggestDocumentNames` on a returned response is
the validation of the parsed text followed by the error rewriting. -/
theorem suggest_returns (apiKey : Option String) (h : keyConfigured apiKey = true)
    (n c m i : String) (resp : GenResponse) :
    suggestDocumentNames apiKey n c m i (.returns resp)
      = match validateParsed (jsonParse (stripFence (trimS resp.text))) with
        | .ok names => ⟨.ok names, true⟩
        | .error mm => ⟨.error (rewriteError mm (some resp)), true⟩ := by
  unfold suggestDocumentNames
  rw [h]
  rfl

/-- A wrapped communication-failure message starts with an `F`, so it never
equals a target message that does not. -/
theorem failed_prefix_ne (tail : String) (target : String)
    (hhead : target.data.head? ≠ some 'F') :
    ("Failed to get suggestions from AI: " ++ tail ++ "." : String) ≠ target := by
  intro he
  apply hhead
  rw [← he]
  have hf : ("Failed to get suggestions from AI: " ++ tail ++ "." : String).data.head?
      = some 'F' := by
    rw [String.data_append, String.data_append]
    have hd : ("Failed to get suggestions from AI: " : String).data
        = 'F' :: ("ailed to get suggestions from AI: " : String).data := by decide
    rw [hd]
    rfl
  rw [hf]

/-! ## The claims -/

/-- Claim C1: the spec claims that the classifier's textual-type decision
(prefix `text/` or membership in its allow-list) and the prompt builder's
independently re-derived `isTextContent` decision agree on every media
type.  The code violates this at `"application/typescript"`: the
classifier deems such a file textual (`FileUpload.tsx` reads it as plain
text and resolves the media type unchanged), while the service module's
allow-list omits that entry, so the builder produces the multimodal
shape, placing the plain text into the `inlineData` field its own comment
documents as base64.  This theorem evaluates both decisions at the
failing input. -/
theorem claim1_typescript_divergence :
    classifierTextualType "application/typescript" = true ∧
    (classify "application/typescript" "main.ts").mode = Mode.Text ∧
    (classify "application/typescript" "main.ts").resolvedMediaType
      = some "application/typescript" ∧
    isTextContent "application/typescript" = false ∧
    promptShapeOf "application/typescript" = PromptShape.multimodal :=
  ⟨rfl, rfl, rfl, rfl, rfl⟩

/-- Claim C2, counterexample: a file named `a.docx` whose declared media
type is `image/png` is classified in the true Binary mode, not the
DOCX-placeholder mode, refuting the claim for arbitrary declared types. -/
theorem claim2_counterexample :
    (classify "image/png" "a.docx").mode = Mode.Binary ∧
    (classify "image/png" "a.docx").mode ≠ Mode.DocxPlaceholder :=
  ⟨rfl, by decide⟩

/-- Claim C2 (amended): for every file whose name ends in `.docx`, under a
declared media type equal to the Word-processing-document type or an
empty/octet-stream declared type, classification returns the
DOCX-placeholder mode with media type forced to `text/plain` (the content
is then replaced by the synthetic placeholder string), never the true
Binary mode. -/
theorem claim2_amended (declaredMediaType name : String)
    (hname : endsWithS name ".docx" = true)
    (hdecl : declaredMediaType = DOCX_MIME_TYPE ∨ declaredMediaType = "" ∨
      declaredMediaType = "application/octet-stream") :
    classify declaredMediaType name = ⟨Mode.DocxPlaceholder, some "text/plain"⟩ := by
  have hlow := endsWithS_lower_docx name hname
  rcases hdecl with hd | hd | hd <;> subst hd <;>
    simp [classify, classifyCore, hlow]

/-- Witness for the amended claim C2 at a concrete input. -/
theorem claim2_amended_witness :
    classify "application/octet-stream" "report.docx"
      = ⟨Mode.DocxPlaceholder, some "text/plain"⟩ :=
  claim2_amended "application/octet-stream" "report.docx" (by decide)
    (Or.inr (Or.inr rfl))

/-- Claim C8: whenever no API credential is configured (absent or empty,
per the JavaScript truthiness test), `suggestDocumentNames` fails
immediately with the configuration error, for every prompt input and
every hypothetical network outcome, and never attempts the network
call. -/
theorem claim8_config_error (apiKey : Option String) (h : keyConfigured apiKey = false)
    (originalFileName fileContent mimeType namingInstruction : String) (net : NetOutcome) :
    suggestDocumentNames apiKey originalFileName fileContent mimeType namingInstruction net
      = ⟨.error configErrorMsg, false⟩ := by
  unfold suggestDocumentNames
  rw [h]
  rfl

/-- Witness for claim C8 at a concrete input. -/
theorem claim8_witness :
    suggestDocumentNames none "a.txt" "hello" "text/plain" "policy"
        (.returns ⟨"[\"x\"]", []⟩) = ⟨.error configErrorMsg, false⟩ :=
  claim8_config_error none rfl "a.txt" "hello" "text/plain" "policy" _

/-- Claim C10: classification is invariant under letter case of the file
name, because `processFile` lowercases the name before every test; in
particular, with an empty or octet-stream declared type, `NOTES.TXT` is
classified Text and `Thesis.DOCX` gets the DOCX-placeholder mode. -/
theorem claim10_case_insensitive :
    (∀ declaredMediaType name : String,
      classify declaredMediaType name = classify declaredMediaType (lowerS name)) ∧
    (classify "" "NOTES.TXT").mode = Mode.Text ∧
    (classify "application/octet-stream" "Thesis.DOCX").mode = Mode.DocxPlaceholder := by
  refine ⟨fun m n => ?_, rfl, rfl⟩
  unfold classify
  rw [lowerS_lowerS]

/-- Claim C3, counterexample: with the naming-policy fetch failed (warning
retained, no policy text) and a successfully read file, `handleSubmit`
does not proceed: it never invokes the suggestion service, passes it no
instructions (in particular not the fallback policy string), and sets the
`Cannot proceed` error instead. -/
theorem claim3_counterexample :
    (handleSubmit (some "key")
        ⟨some "a.txt", some "hello", some "text/plain", none,
          some "Error loading naming guidelines (naming_ref.md): fetch failed. Suggestions may not follow specific rules.",
          [], none, false⟩
        (.ok ["YW_suggestion_20240101"])).attempted = false ∧
    (handleSubmit (some "key")
        ⟨some "a.txt", some "hello", some "text/plain", none,
          some "Error loading naming guidelines (naming_ref.md): fetch failed. Suggestions may not follow specific rules.",
          [], none, false⟩
        (.ok ["YW_suggestion_20240101"])).instructionsUsed = none ∧
    (handleSubmit (some "key")
        ⟨some "a.txt", some "hello", some "text/plain", none,
          some "Error loading naming guidelines (naming_ref.md): fetch failed. Suggestions may not follow specific rules.",
          [], none, false⟩
        (.ok ["YW_suggestion_20240101"])).state.error
      = some "Cannot proceed: Error loading naming guidelines (naming_ref.md): fetch failed. Suggestions may not follow specific rules." :=
  ⟨rfl, rfl, rfl⟩

/-- Claim C3 (amended): whenever the startup fetch of the naming-policy
resource has failed (a warning is retained and no policy text is
available), a subsequent suggestion request for a successfully read file
does not proceed: `handleSubmit` returns early with the error
`Cannot proceed: <retained warning>`, never invokes the suggestion
service, and so never uses the fallback policy string. -/
theorem claim3_amended (apiKey : Option String) (s : AppState)
    (outcome : Except String (List String))
    (hdoc : truthy s.documentContent = true)
    (hmime : truthy s.uploadedFileMimeType = true)
    (hname : truthy s.originalFileName = true)
    (href : truthy s.namingRefContent = false)
    (herr : truthy s.namingRefError = true) :
    handleSubmit apiKey s outcome
      = ⟨{ s with error := some ("Cannot proceed: " ++ s.namingRefError.getD "") },
          false, none⟩ := by
  unfold handleSubmit
  rw [hdoc, hmime, hname, href, herr]
  simp

/-- Witness for the amended claim C3 at a concrete state. -/
theorem claim3_witness :
    handleSubmit (some "key")
        ⟨some "b.txt", some "content", some "text/plain", none, some "warn", [], none, false⟩
        (.error "network")
      = ⟨⟨some "b.txt", some "content", some "text/plain", none, some "warn", [],
          some "Cannot proceed: warn", false⟩, false, none⟩ :=
  claim3_amended (some "key")
    ⟨some "b.txt", some "content", some "text/plain", none, some "warn", [], none, false⟩
    (.error "network") rfl rfl rfl rfl rfl

/-- Claim C4, counterexample: after a request attempt settles in failure,
the previously read document content is retained while the error message
is set, so both are present at once; and after a cleared file selection
neither a document content nor an error is present.  Both situations
refute the claimed exactly-one invariant. -/
theorem claim4_counterexample :
    ((handleSubmit (some "key")
        ⟨some "a.txt", some "hello", some "text/plain", some "policy", none, [], none, true⟩
        (.error "Failed to get suggestions from AI: network.")).state.documentContent
      = some "hello" ∧
     (handleSubmit (some "key")
        ⟨some "a.txt", some "hello", some "text/plain", some "policy", none, [], none, true⟩
        (.error "Failed to get suggestions from AI: network.")).state.error
      = some "Failed to get suggestions from AI: network.") ∧
    ((handleFileSelect
        ⟨some "a.txt", some "hello", some "text/plain", some "policy", none, [], none, false⟩
        .cleared).documentContent = none ∧
     (handleFileSelect
        ⟨some "a.txt", some "hello", some "text/plain", some "policy", none, [], none, false⟩
        .cleared).error = none) :=
  ⟨⟨rfl, rfl⟩, ⟨rfl, rfl⟩⟩

/-- Claim C4 (amended): after a file-selection attempt that examines a
file settles, exactly one of {document content present, error present}
holds and the suggestion list is cleared; clearing the selection leaves
neither.  After a request attempt that was actually made settles, a
failure leaves the error present with the suggestion list empty while the
previously read document content is retained (so content and error may
coexist), and a success leaves the suggestions with no error. -/
theorem claim4_amended :
    (∀ (s : AppState) (name content mimeType : String),
      (handleFileSelect s (.selected name content mimeType)).documentContent.isSome = true ∧
      (handleFileSelect s (.selected name content mimeType)).error = none ∧
      (handleFileSelect s (.selected name content mimeType)).suggestedNames = []) ∧
    (∀ (s : AppState) (msg : String),
      (handleFileSelect s (.failed msg)).documentContent = none ∧
      (handleFileSelect s (.failed msg)).error = some msg ∧
      (handleFileSelect s (.failed msg)).suggestedNames = []) ∧
    (∀ s : AppState,
      (handleFileSelect s .cleared).documentContent = none ∧
      (handleFileSelect s .cleared).error = none) ∧
    (∀ (apiKey : Option String) (s : AppState) (msg : String),
      (handleSubmit apiKey s (.error msg)).attempted = true →
        (handleSubmit apiKey s (.error msg)).state.error = some msg ∧
        (handleSubmit apiKey s (.error msg)).state.suggestedNames = [] ∧
        (handleSubmit apiKey s (.error msg)).state.documentContent = s.documentContent) ∧
    (∀ (apiKey : Option String) (s : AppState) (names : List String),
      (handleSubmit apiKey s (.ok names)).attempted = true →
        (handleSubmit apiKey s (.ok names)).state.error = none ∧
        (handleSubmit apiKey s (.ok names)).state.suggestedNames = names ∧
        (handleSubmit apiKey s (.ok names)).state.documentContent = s.documentContent) := by
  refine ⟨fun s nm ct mt => ⟨rfl, rfl, rfl⟩, fun s msg => ⟨rfl, rfl, rfl⟩,
    fun s => ⟨rfl, rfl⟩, ?_, ?_⟩
  · intro apiKey s msg hatt
    unfold handleSubmit at hatt ⊢
    split_ifs at hatt ⊢ <;> simp_all
  · intro apiKey s names hatt
    unfold handleSubmit at hatt ⊢
    split_ifs at hatt ⊢ <;> simp_all

/-- Witness for the amended claim C4 at a concrete state on which the
request was actually attempted. -/
theorem claim4_witness :
    (handleSubmit (some "key")
        ⟨some "c.txt", some "body", some "text/plain", some "policy", none, ["old"], none, true⟩
        (.error "boom")).state.error = some "boom" ∧
    (handleSubmit (some "key")
        ⟨some "c.txt", some "body", some "text/plain", some "policy", none, ["old"], none, true⟩
        (.error "boom")).state.suggestedNames = [] ∧
    (handleSubmit (some "key")
        ⟨some "c.txt", some "body", some "text/plain", some "policy", none, ["old"], none, true⟩
        (.error "boom")).state.documentContent
      = (⟨some "c.txt", some "body", some "text/plain", some "policy", none, ["old"], none,
          true⟩ : AppState).documentContent :=
  claim4_amended.2.2.2.1 (some "key")
    ⟨some "c.txt", some "body", some "text/plain", some "policy", none, ["old"], none, true⟩
    "boom" rfl

/-- Claim C5, counterexample.  First: a text that is itself a fenced block
refutes the wrap-then-strip idempotence as claimed against the full
parsing pipeline — only one layer is stripped, so the wrapped case fails
to parse while the unwrapped case parses.  Second: against a direct
`JSON.parse` of the unwrapped text, a text led by a vertical tab (which
the `\s`-based stripping and trimming absorb but JSON whitespace
rejects) parses when wrapped-then-stripped yet fails when parsed
directly. -/
theorem claim5_counterexample :
    responseParse (wrapFence "" "```\n[1]\n```") ≠ responseParse "```\n[1]\n```" ∧
    jsonParse (stripFence (trimS (wrapFence "" "\x0b[1]"))) ≠ jsonParse "\x0b[1]" := by
  constructor
  · have h1 : responseParse (wrapFence "" "```\n[1]\n```") = none := rfl
    have h2 : responseParse "```\n[1]\n```" = some (Json.arr [Json.num "1"]) := rfl
    rw [h1, h2]
    exact fun he => Option.noConfusion he
  · have h1 : jsonParse (stripFence (trimS (wrapFence "" "\x0b[1]")))
        = some (Json.arr [Json.num "1"]) := rfl
    have h2 : jsonParse "\x0b[1]" = none := rfl
    rw [h1, h2]
    exact fun he => Option.noConfusion he

/-- Claim C5 (amended): fence stripping removes at most one layer of a
surrounding triple-backtick code fence (with or without a language tag)
and is a no-op on every response text free of code fences; and for every
text on which stripping (after trimming) is already a no-op, wrapping it
in a fenced block and then running the same trim-strip-parse pipeline
yields the same JSON parse result as running the pipeline on the
unwrapped text. -/
theorem claim5_amended :
    (∀ s : String, containsS s "```" = false → stripFence s = s) ∧
    (∀ lang t : String, lang.data.all isWordChar = true →
      stripFence (trimS t) = trimS t →
      responseParse (wrapFence lang t) = responseParse t) ∧
    (∀ lang lang2 u : String, lang.data.all isWordChar = true →
      lang2.data.all isWordChar = true →
      stripFence (wrapFence lang (wrapFence lang2 u)) = wrapFence lang2 u) := by
  refine ⟨?_, ?_, ?_⟩
  · intro s h
    by_cases hs : startsTicks s.data = true
    · have hsub := isSubOf_of_startsTicks s.data hs
      have hc : containsS s "```" = true := by
        have hd : ("```" : String).data = tickL := by decide
        show isSubOf ("```" : String).data s.data = true
        rw [hd]
        exact hsub
      rw [hc] at h
      exact Bool.noConfusion h
    · have hs' : startsTicks s.data = false := by
        cases hb : startsTicks s.data with
        | false => rfl
        | true => exact absurd hb hs
      show (⟨stripFenceL s.data⟩ : String) = s
      rw [stripFenceL_not_fenced hs']
  · intro lang t hlang hnoop
    have hwrapdata : (wrapFence lang t).data = wrapL lang.data t.data := rfl
    have htrimwrap : trimS (wrapFence lang t) = wrapFence lang t := by
      show (⟨trimL (wrapFence lang t).data⟩ : String) = wrapFence lang t
      rw [hwrapdata, trimL_wrapL]
      rfl
    unfold responseParse
    rw [htrimwrap]
    by_cases hws : t.data.all isWsChar = true
    · have h1 : stripFence (wrapFence lang t) = wrapFence lang t := by
        show (⟨stripFenceL (wrapFence lang t).data⟩ : String) = wrapFence lang t
        rw [hwrapdata, stripFenceL_wrapL_ws lang.data t.data hlang hws]
        rfl
      rw [h1]
      have h2 : jsonParse (wrapFence lang t) = none := by
        show jsonParseL (wrapFence lang t).data = none
        rw [hwrapdata, wrapL_eq_cons]
        exact jsonParseL_tick_head _
      rw [h2]
      have h3 : trimS t = "" := by
        show (⟨trimL t.data⟩ : String) = ""
        rw [trimL_all_ws hws]
      rw [h3]
      rfl
    · have hws' : t.data.all isWsChar = false := by
        cases hb : t.data.all isWsChar with
        | false => rfl
        | true => exact absurd hb hws
      have h1 : stripFence (wrapFence lang t) = trimS t := by
        show (⟨stripFenceL (wrapFence lang t).data⟩ : String) = trimS t
        rw [hwrapdata, stripFenceL_wrapL lang.data t.data hlang hws']
        rfl
      rw [h1, hnoop]
  · intro lang lang2 u hlang hlang2
    have hinner : (wrapFence lang (wrapFence lang2 u)).data
        = wrapL lang.data (wrapL lang2.data u.data) := rfl
    have hws : (wrapL lang2.data u.data).all isWsChar = false := by
      rw [wrapL_eq_cons]
      simp [isWsChar_tick]
    show (⟨stripFenceL (wrapFence lang (wrapFence lang2 u)).data⟩ : String)
      = wrapFence lang2 u
    rw [hinner, stripFenceL_wrapL lang.data _ hlang hws, trimL_wrapL]
    rfl

/-- Witness for the amended claim C5 at concrete inputs: a fence-free
text is untouched; a fenced JSON array parses the same as the bare array
through the pipeline; a double fence loses exactly its outer layer. -/
theorem claim5_witness :
    stripFence "[\"a\"]" = "[\"a\"]" ∧
    responseParse (wrapFence "json" "[1, 2]") = responseParse "[1, 2]" ∧
    stripFence (wrapFence "" (wrapFence "json" "[1]")) = wrapFence "json" "[1]" :=
  ⟨claim5_amended.1 "[\"a\"]" (by decide),
   claim5_amended.2.1 "json" "[1, 2]" (by decide) (by decide),
   claim5_amended.2.2 "" "json" "[1]" (by decide) (by decide)⟩

/-- Claim C6: for every response text whose pipeline parse is a JSON array
of strings, the request returns exactly that ordered sequence as-is — no
de-duplication, no reordering, no truncation to 5, no rejection based on
element count — whatever the candidate metadata of the response. -/
theorem claim6_array_returned_as_is (apiKey : Option String)
    (h : keyConfigured apiKey = true) (n c m i : String) (resp : GenResponse)
    (l : List String)
    (hparse : responseParse resp.text = some (Json.arr (l.map Json.str))) :
    (suggestDocumentNames apiKey n c m i (.returns resp)).result = .ok l := by
  rw [suggest_returns apiKey h n c m i resp]
  unfold responseParse at hparse
  rw [hparse]
  have hv : validateParsed (some (Json.arr (l.map Json.str))) = .ok l := by
    show (if (l.map Json.str).all isStrJson = true then Except.ok (stringsOf (l.map Json.str))
          else Except.error unexpectedFormatMsg) = Except.ok l
    rw [if_pos (allStr_map_str l), stringsOf_map_str]
  rw [hv]

/-- Witness for claim C6: the spec's concrete example, a two-element
array, is returned exactly and in order. -/
theorem claim6_witness :
    (suggestDocumentNames (some "key") "f" "c" "text/plain" "i"
        (.returns ⟨"[\"A_B_20240101\", \"C_D_20240101\"]", []⟩)).result
      = .ok ["A_B_20240101", "C_D_20240101"] :=
  claim6_array_returned_as_is (some "key") rfl "f" "c" "text/plain" "i"
    ⟨"[\"A_B_20240101\", \"C_D_20240101\"]", []⟩ ["A_B_20240101", "C_D_20240101"] rfl

/-- Claim C7, counterexample: the response text `'"API key not valid"'`
parses to a bare string, yet the surfaced error is the invalid-API-key
rewriting, which neither quotes the parsed string nor is an
unexpected-format message — refuting the claim for every bare-string
response. -/
theorem claim7_counterexample :
    responseParse "\"API key not valid\"" = some (Json.str "API key not valid") ∧
    (suggestDocumentNames (some "key") "f" "c" "text/plain" "i"
        (.returns ⟨"\"API key not valid\"", []⟩)).result = .error invalidKeyMsg ∧
    containsS invalidKeyMsg "API key not valid" = false ∧
    containsS invalidKeyMsg ("\"" ++ "API key not valid" ++ "\"") = false :=
  ⟨rfl, rfl, by decide, by decide⟩

/-- Claim C7 (amended): for every response whose pipeline parse succeeds
but is not an array of strings, under a normal finish reason the request
fails with the wrapped unexpected-format error: when the parsed value is
a bare string whose error message does not contain the invalid-key marker
text, the message quotes that string between double quotes; for any other
non-conforming shape, the generic expected-array-of-strings message is
produced. -/
theorem claim7_amended (apiKey : Option String) (h : keyConfigured apiKey = true)
    (n c m i : String) (resp : GenResponse)
    (hnormal : ∀ cand, resp.candidates.head? = some cand →
      cand.finishReason = none ∨ cand.finishReason = some FinishReason.STOP) :
    (∀ s : String, responseParse resp.text = some (Json.str s) →
      containsS (bareStringMsg s) "API key not valid" = false →
      (suggestDocumentNames apiKey n c m i (.returns resp)).result
          = .error ("Failed to get suggestions from AI: " ++ bareStringMsg s ++ ".") ∧
        containsS ("Failed to get suggestions from AI: " ++ bareStringMsg s ++ ".")
          ("\"" ++ s ++ "\"") = true) ∧
    (∀ v : Json, responseParse resp.text = some v → isStrJson v = false →
      isStringArray v = false →
      (suggestDocumentNames apiKey n c m i (.returns resp)).result
        = .error ("Failed to get suggestions from AI: " ++ unexpectedFormatMsg ++ ".")) := by
  constructor
  · intro s hparse hmarker
    rw [suggest_returns apiKey h n c m i resp]
    unfold responseParse at hparse
    rw [hparse]
    have hv : validateParsed (some (Json.str s)) = .error (bareStringMsg s) := rfl
    rw [hv]
    constructor
    · show Except.error (rewriteError (bareStringMsg s) (some resp)) = _
      rw [rewriteError_normal _ resp hnormal]
      unfold baseErrorMessage
      rw [if_neg (by simp [hmarker])]
    · have hmsg : "Failed to get suggestions from AI: " ++ bareStringMsg s ++ "."
          = ("Failed to get suggestions from AI: "
              ++ "Received a single string from AI instead of a JSON array: ")
            ++ ("\"" ++ s ++ "\"")
            ++ (". Please check AI prompt for JSON array enforcement." ++ ".") := by
        apply string_eq_of_data
        simp [bareStringMsg, String.data_append, List.append_assoc]
      rw [hmsg]
      exact containsS_middle _ _ _
  · intro v hparse hstr harr
    rw [suggest_returns apiKey h n c m i resp]
    unfold responseParse at hparse
    rw [hparse]
    have hv : validateParsed (some v) = .error unexpectedFormatMsg := by
      cases v with
      | arr xs =>
        show (if xs.all isStrJson = true then Except.ok (stringsOf xs)
              else Except.error unexpectedFormatMsg) = Except.error unexpectedFormatMsg
        simp only [isStringArray] at harr
        rw [if_neg (by simp [harr])]
      | str s => simp [isStrJson] at hstr
      | null => rfl
      | bool b => rfl
      | num lx => rfl
      | obj ms => rfl
    rw [hv]
    show Except.error (rewriteError unexpectedFormatMsg (some resp)) = _
    rw [rewriteError_normal _ resp hnormal]
    unfold baseErrorMessage
    rw [if_neg (by decide)]

/-- Witness for the amended claim C7 at the spec's own examples: a bare
string response and a non-string array. -/
theorem claim7_witness :
    (suggestDocumentNames (some "key") "f" "c" "text/plain" "i"
        (.returns ⟨"\"just a string\"", []⟩)).result
      = .error ("Failed to get suggestions from AI: " ++ bareStringMsg "just a string" ++ ".") ∧
    containsS ("Failed to get suggestions from AI: " ++ bareStringMsg "just a string" ++ ".")
      ("\"" ++ "just a string" ++ "\"") = true ∧
    (suggestDocumentNames (some "key") "f" "c" "text/plain" "i"
        (.returns ⟨"[1, 2]", []⟩)).result
      = .error ("Failed to get suggestions from AI: " ++ unexpectedFormatMsg ++ ".") := by
  have h1 := (claim7_amended (some "key") rfl "f" "c" "text/plain" "i"
    ⟨"\"just a string\"", []⟩ (fun cand hcand => Option.noConfusion hcand)).1
    "just a string" rfl (by decide)
  have h2 := (claim7_amended (some "key") rfl "f" "c" "text/plain" "i"
    ⟨"[1, 2]", []⟩ (fun cand hcand => Option.noConfusion hcand)).2
    (Json.arr [Json.num "1", Json.num "2"]) rfl rfl rfl
  exact ⟨h1.1, h1.2, h2⟩

/-- Claim C9: whenever the response carries a SAFETY finish reason on its
first candidate and the inner validation throws, the surfaced error is
the fixed safety-specific explanation and differs from every generic
communication-failure message; likewise RECITATION and OTHER each
produce their own reason-specific message. -/
theorem claim9_finish_reason_messages (apiKey : Option String)
    (h : keyConfigured apiKey = true) (n c m i : String) (resp : GenResponse)
    (cand : Candidate) (rest : List Candidate) (hc : resp.candidates = cand :: rest)
    (im : String)
    (hfail : validateParsed (responseParse resp.text) = Except.error im) :
    (cand.finishReason = some FinishReason.SAFETY →
      (suggestDocumentNames apiKey n c m i (.returns resp)).result = .error safetyMsg ∧
      ("Failed to get suggestions from AI: " ++ im ++ ".") ≠ safetyMsg) ∧
    (cand.finishReason = some FinishReason.RECITATION →
      (suggestDocumentNames apiKey n c m i (.returns resp)).result = .error recitationMsg ∧
      ("Failed to get suggestions from AI: " ++ im ++ ".") ≠ recitationMsg) ∧
    (cand.finishReason = some FinishReason.OTHER →
      (suggestDocumentNames apiKey n c m i (.returns resp)).result = .error otherStopMsg ∧
      ("Failed to get suggestions from AI: " ++ im ++ ".") ≠ otherStopMsg) := by
  have hfin := rewriteError_finish im resp cand rest hc
  rw [suggest_returns apiKey h n c m i resp]
  unfold responseParse at hfail
  rw [hfail]
  refine ⟨fun hn => ⟨?_, failed_prefix_ne im safetyMsg (by decide)⟩,
    fun hn => ⟨?_, failed_prefix_ne im recitationMsg (by decide)⟩,
    fun hn => ⟨?_, failed_prefix_ne im otherStopMsg (by decide)⟩⟩
  · show Except.error (rewriteError im (some resp)) = Except.error safetyMsg
    rw [hfin.1 hn]
  · show Except.error (rewriteError im (some resp)) = Except.error recitationMsg
    rw [hfin.2.1 hn]
  · show Except.error (rewriteError im (some resp)) = Except.error otherStopMsg
    rw [hfin.2.2 hn]

/-- Witness for claim C9 at a concrete safety-blocked response whose text
does not parse. -/
theorem claim9_witness :
    (suggestDocumentNames (some "key") "f" "c" "text/plain" "i"
        (.returns ⟨"oops", [⟨some FinishReason.SAFETY⟩]⟩)).result = .error safetyMsg ∧
    ("Failed to get suggestions from AI: " ++ jsonSyntaxErrorMsg ++ ".") ≠ safetyMsg :=
  (claim9_finish_reason_messages (some "key") rfl "f" "c" "text/plain" "i"
    ⟨"oops", [⟨some FinishReason.SAFETY⟩]⟩ ⟨some FinishReason.SAFETY⟩ [] rfl
    jsonSyntaxErrorMsg rfl).1 rfl

end AiFileNamer
